import Mathlib

/-!
# pcbook: authorization layer and streaming handlers

A shallow embedding of the Go sources under `service/` and `client/`:

* `service/auth_interceptor.go`  : `AuthInterceptor.authorize`
* `service/laptop_server.go`     : `UploadImage`, `RateLaptop`, `contextError`
* `service/rating_store.go`      : `InMemoryRatingStore.Add`
* `service/user_store.go`        : `InMemoryUserStore.Save`, `Find`
* `service/user.go`              : `User.Clone`
* `client/auth_interceptor.go`   : `Unary`, `Stream`, `attachToken`

Conventions of the embedding.

* A Go `error` that is a gRPC status is kept as its status code; `none` is `nil`.
  The formatted message text is dropped.
* A Go map is a total lookup function: `map[string]T` with the comma-ok read is
  `String → Option T`, a plain read of `map[string]bool` is `String → Bool`.
* Collaborators that the handlers reach only through an interface or a pointer
  (`JWTManager.Verify`, `LaptopStore.Find`, `ImageStore.Save`, the gRPC stream)
  are parameters of the embedding.
* Every embedded handler returns, next to the Go return value, the calls it
  made on its collaborators, so that statements of the form "X is never
  called" are statements about the returned record.
-/

namespace PcBook

/-! ## Status codes -/

/-- The gRPC status codes that the embedded sources construct. -/
inductive Code where
  | Canceled
  | Unknown
  | InvalidArgument
  | DeadlineExceeded
  | NotFound
  | AlreadyExists
  | PermissionDenied
  | Internal
  | Unauthenticated
  deriving DecidableEq, Repr

/-! ## service/auth_interceptor.go -/

/-- The claims struct returned by `JWTManager.Verify`; `authorize` reads `Role`. -/
structure UserClaims where
  Username : String
  Role : String
  deriving DecidableEq, Repr

/-- The type `metadata.MD`, a `map[string][]string`; a missing key reads as the nil slice. -/
abbrev MD := String → List String

/-- The struct `service.AuthInterceptor`: `jwtManager` is kept as its `Verify` method,
`accessibleRoles` as the comma-ok lookup of the map. -/
structure AuthInterceptor where
  Verify : String → Except String UserClaims
  accessibleRoles : String → Option (List String)

/-- What one call of `authorize` did: the returned error and the access tokens handed
to `jwtManager.Verify`, in call order. -/
structure AuthorizeResult where
  err : Option Code
  verifyCalls : List String
  deriving DecidableEq, Repr

/-- The loop `for _, role := range accessibleRoles { if claims.Role == role { return nil } }`:
`true` when the loop returns from inside, `false` when it falls through. -/
def roleInList (claimsRole : String) : List String → Bool
  | [] => false
  | role :: rest => if claimsRole = role then true else roleInList claimsRole rest

/-- The method `(*AuthInterceptor).authorize(ctx, method)`. The argument `incoming` is the
result of `metadata.FromIncomingContext(ctx)`: `none` when `ok` is false. Line 64 of the
source spells the package of the status code `code` where the import is `codes`; it is
read as `codes.Unauthenticated`, the constant of that name. -/
def authorize (u : AuthInterceptor) (incoming : Option MD) (method : String) : AuthorizeResult :=
  match u.accessibleRoles method with
  | none => { err := none, verifyCalls := [] }
  | some accessibleRoles =>
    match incoming with
    | none => { err := some Code.Unauthenticated, verifyCalls := [] }
    | some md =>
      match md "authorization" with
      | [] => { err := some Code.Unauthenticated, verifyCalls := [] }
      | accessToken :: _ =>
        match u.Verify accessToken with
        | Except.error _ => { err := some Code.Unauthenticated, verifyCalls := [accessToken] }
        | Except.ok claims =>
          if roleInList claims.Role accessibleRoles then
            { err := none, verifyCalls := [accessToken] }
          else
            { err := some Code.PermissionDenied, verifyCalls := [accessToken] }

/-- The policy table `accessibleRoles()` of `cmd/server/main.go`. -/
def serverAccessibleRoles (method : String) : Option (List String) :=
  if method = "/pcbook.pcbook.LaptopService/CreateLaptop" then some ["admin"]
  else if method = "/pcbook.pcbook.LaptopService/UploadImage" then some ["admin"]
  else if method = "/pcbook.pcbook.LaptopService/RateLaptop" then some ["admin", "user"]
  else none

/-- A sample token manager: two tokens verify, every other string is rejected. -/
def sampleVerify (token : String) : Except String UserClaims :=
  if token = "tok-admin" then Except.ok { Username := "admin1", Role := "admin" }
  else if token = "tok-user" then Except.ok { Username := "user1", Role := "user" }
  else Except.error "invalid token"

/-- The interceptor built in `cmd/server/main.go`, over the sample token manager. -/
def sampleInterceptor : AuthInterceptor :=
  { Verify := sampleVerify, accessibleRoles := serverAccessibleRoles }

/-- Call metadata carrying the given values under `authorization` and nothing else. -/
def mdWithAuthorization (values : List String) : MD :=
  fun key => if key = "authorization" then values else []

/-! ## service/laptop_server.go: shared pieces -/

/-- The constant `maxImageSize = 1 << 20`. -/
def maxImageSize : Nat := 1 <<< 20

/-- One byte of a chunk. -/
abbrev Byte := Fin 256

/-- The value of `ctx.Err()`. By the contract of `context.Context` it is nil while the
context is live, `context.Canceled` after a cancel and `context.DeadlineExceeded` after
the deadline passed. -/
inductive CtxErr where
  | nil
  | Canceled
  | DeadlineExceeded
  deriving DecidableEq, Repr

/-- The function `contextError(ctx)`, applied to the value of `ctx.Err()`. -/
def contextError : CtxErr → Option Code
  | CtxErr.Canceled => some Code.Canceled
  | CtxErr.DeadlineExceeded => some Code.DeadlineExceeded
  | CtxErr.nil => none

/-- The pair returned by one `stream.Recv()`: a message with a nil error, `io.EOF`, or any
other error. -/
inductive RecvResult (α : Type) where
  | msg (req : α)
  | EOF
  | failure
  deriving DecidableEq, Repr

/-- The message `pb.Laptop`; the handlers only test the pointer against nil. -/
structure Laptop where
  Id : String
  deriving DecidableEq, Repr

/-- The pair returned by `laptopStore.Find(id)`: a non-nil error, `(nil, nil)`, or a
laptop. -/
inductive FindResult where
  | failure
  | absent
  | found (laptop : Laptop)
  deriving DecidableEq, Repr

/-! ## service/laptop_server.go: UploadImage -/

/-- The message `pb.ImageInfo`. -/
structure ImageInfo where
  LaptopId : String
  ImageType : String
  deriving DecidableEq, Repr

/-- The message `pb.UploadImageRequest`, a oneof of an image info and a data chunk; the
oneof may also be unset. -/
inductive UploadImageRequest where
  | Info (info : ImageInfo)
  | ChunkData (chunk : List Byte)
  | unset
  deriving DecidableEq, Repr

/-- The generated getter `GetInfo`: nil unless the oneof holds an image info. -/
def UploadImageRequest.GetInfo : UploadImageRequest → Option ImageInfo
  | UploadImageRequest.Info info => some info
  | _ => none

/-- The generated getter `GetChunkData`: nil (length 0) unless the oneof holds a chunk. -/
def UploadImageRequest.GetChunkData : UploadImageRequest → List Byte
  | UploadImageRequest.ChunkData chunk => chunk
  | _ => []

/-- The generated getter `GetLaptopId`, nil-safe: the empty string on a nil receiver. -/
def GetLaptopId : Option ImageInfo → String
  | some info => info.LaptopId
  | none => ""

/-- The generated getter `GetImageType`, nil-safe: the empty string on a nil receiver. -/
def GetImageType : Option ImageInfo → String
  | some info => info.ImageType
  | none => ""

/-- The message `pb.UploadImageResponse`; `Size` is a uint32. -/
structure UploadImageResponse where
  Id : String
  Size : Nat
  deriving DecidableEq, Repr

/-- The arguments of one call of `imageStore.Save`. -/
structure SaveCall where
  laptopID : String
  imageType : String
  imageData : List Byte
  deriving DecidableEq, Repr

/-- The stream `pb.LaptopService_UploadImageServer` as the handler sees it: `recvs` are
the results of the successive `Recv` calls (after the last one the client has half-closed
and `Recv` gives `io.EOF`), `ctxErr k` is the value of `stream.Context().Err()` at the
check of loop iteration `k` (counted from 0), and `SendAndClose` tells whether the
response is delivered (nil error). -/
structure UploadImageStream where
  recvs : List (RecvResult UploadImageRequest)
  ctxErr : Nat → CtxErr
  SendAndClose : UploadImageResponse → Bool

/-- How the `for` loop of `UploadImage` ends: by a `return` from inside the loop, or by
the `break` at end of stream. Both carry the buffer `imageData` and the number of `Recv`
calls made by the handler so far (the one before the loop included). -/
inductive ChunkLoopExit where
  | returned (err : Code) (imageData : List Byte) (recvCalls : Nat)
  | finished (imageData : List Byte) (imageSize : Nat) (recvCalls : Nat)
  deriving DecidableEq, Repr

/-- The `for` loop of `UploadImage` (lines 115 to 148), started at iteration `iter` with the
buffer `imageData` and the running total `imageSize`. `bytes.Buffer.Write` never returns
an error, so its error branch is not reachable. The total `imageSize` is a Go `int`; it is
at most `maxImageSize` before each addition, so the addition of a slice length cannot
wrap and it is kept as a natural number. -/
def receiveChunks (ctxErr : Nat → CtxErr) (recvs : List (RecvResult UploadImageRequest))
    (iter : Nat) (imageData : List Byte) (imageSize : Nat) : ChunkLoopExit :=
  match contextError (ctxErr iter) with
  | some err => ChunkLoopExit.returned err imageData (iter + 1)
  | none =>
    match recvs with
    | [] => ChunkLoopExit.finished imageData imageSize (iter + 2)
    | RecvResult.EOF :: _ => ChunkLoopExit.finished imageData imageSize (iter + 2)
    | RecvResult.failure :: _ => ChunkLoopExit.returned Code.Unknown imageData (iter + 2)
    | RecvResult.msg req :: rest =>
      let chunk := req.GetChunkData
      let imageSize := imageSize + chunk.length
      if imageSize > maxImageSize then
        ChunkLoopExit.returned Code.InvalidArgument imageData (iter + 2)
      else
        receiveChunks ctxErr rest (iter + 1) (imageData ++ chunk) imageSize

/-- What one run of `UploadImage` did: the returned error, the number of `Recv` calls,
the content of the buffer `imageData` when the handler returned, the calls of
`imageStore.Save`, and the response handed to `SendAndClose` (if it was called). -/
structure UploadOutcome where
  err : Option Code
  recvCalls : Nat
  imageData : List Byte
  saveCalls : List SaveCall
  response : Option UploadImageResponse
  deriving DecidableEq, Repr

/-- The handler `(*LaptopServer).UploadImage(stream)`. `Find` is `server.laptopStore.Find`
and `Save` is `server.imageStore.Save` (an error, or the generated image id). -/
def UploadImage (Find : String → FindResult)
    (Save : String → String → List Byte → Except String String)
    (stream : UploadImageStream) : UploadOutcome :=
  match stream.recvs with
  | RecvResult.msg req :: rest =>
    let laptopID := GetLaptopId req.GetInfo
    let imageType := GetImageType req.GetInfo
    match Find laptopID with
    | FindResult.failure =>
      { err := some Code.NotFound, recvCalls := 1, imageData := [], saveCalls := [],
        response := none }
    | FindResult.absent =>
      { err := some Code.NotFound, recvCalls := 1, imageData := [], saveCalls := [],
        response := none }
    | FindResult.found _ =>
      match receiveChunks stream.ctxErr rest 0 [] 0 with
      | ChunkLoopExit.returned err imageData recvCalls =>
        { err := some err, recvCalls := recvCalls, imageData := imageData, saveCalls := [],
          response := none }
      | ChunkLoopExit.finished imageData imageSize recvCalls =>
        match Save laptopID imageType imageData with
        | Except.error _ =>
          { err := some Code.Internal, recvCalls := recvCalls, imageData := imageData,
            saveCalls := [⟨laptopID, imageType, imageData⟩], response := none }
        | Except.ok imageID =>
          let res : UploadImageResponse := { Id := imageID, Size := imageSize % 2 ^ 32 }
          if stream.SendAndClose res then
            { err := none, recvCalls := recvCalls, imageData := imageData,
              saveCalls := [⟨laptopID, imageType, imageData⟩], response := some res }
          else
            { err := some Code.Unknown, recvCalls := recvCalls, imageData := imageData,
              saveCalls := [⟨laptopID, imageType, imageData⟩], response := some res }
  | _ =>
    { err := some Code.Unknown, recvCalls := 1, imageData := [], saveCalls := [],
      response := none }

/-- The chunk bytes that the loop of `UploadImage` reads out of a list of messages:
`GetChunkData` of each, in arrival order. -/
def chunksOf (msgs : List UploadImageRequest) : List (List Byte) :=
  msgs.map UploadImageRequest.GetChunkData

/-- The sum of the lengths of the chunks of a list of messages. -/
def totalSize (msgs : List UploadImageRequest) : Nat :=
  ((chunksOf msgs).map List.length).sum

/-- A laptop store that holds exactly the laptop with id `laptop-1`. -/
def sampleFind (id : String) : FindResult :=
  if id = "laptop-1" then FindResult.found { Id := "laptop-1" } else FindResult.absent

/-- An image store whose `Save` always succeeds with the id `image-1`. -/
def sampleSave (_laptopID _imageType : String) (_imageData : List Byte) :
    Except String String :=
  Except.ok "image-1"

/-- A chunk message of exactly 1048576 zero bytes, the size limit. -/
def fullChunk : UploadImageRequest :=
  UploadImageRequest.ChunkData (List.replicate 1048576 0)

/-- A chunk message of a single byte. -/
def oneByteChunk : UploadImageRequest :=
  UploadImageRequest.ChunkData [7]

/-- The first message of an upload for `laptop-1` with type `.jpg`. -/
def sampleInfo : UploadImageRequest :=
  UploadImageRequest.Info { LaptopId := "laptop-1", ImageType := ".jpg" }

/-! ## service/rating_store.go -/

/-- The float64 operations that the rating code applies to scores, over a carrier `F`
for the float64 values: the zero value of a float64 field, `+`, `/` and the conversion
`float64(n)` of a uint32. Nothing is assumed about them. -/
structure Float64Ops (F : Type) where
  zero : F
  add : F → F → F
  div : F → F → F
  ofUInt32 : Nat → F

/-- The operations of `Float64Ops` on the IEEE double type of Lean. -/
def float64Ops : Float64Ops Float :=
  { zero := 0.0, add := fun x y => x + y, div := fun x y => x / y,
    ofUInt32 := fun n => Float.ofNat n }

/-- The struct `Rating`: `Count` is a uint32, `Sum` a float64. -/
structure Rating (F : Type) where
  Count : Nat
  Sum : F

/-- The struct `InMemoryRatingStore`: the map `ratings` read as a lookup; a key that is
absent or holds a nil pointer reads as `none`. The mutex is not modelled. -/
structure InMemoryRatingStore (F : Type) where
  ratings : String → Option (Rating F)

/-- The constructor `NewInMemoryRatingStore()`. -/
def NewInMemoryRatingStore (F : Type) : InMemoryRatingStore F :=
  { ratings := fun _ => none }

/-- The method `(*InMemoryRatingStore).Add(laptopID, score)`: the store after the call
and the rating the returned pointer refers to. `Count++` wraps at 2^32. The returned
error is always nil. -/
def InMemoryRatingStore.Add {F : Type} (ops : Float64Ops F) (r : InMemoryRatingStore F)
    (laptopID : String) (score : F) : InMemoryRatingStore F × Rating F :=
  let rating : Rating F :=
    match r.ratings laptopID with
    | some rating => rating
    | none => { Count := 0, Sum := ops.zero }
  let rating : Rating F :=
    { Count := (rating.Count + 1) % 2 ^ 32, Sum := ops.add rating.Sum score }
  ({ ratings := fun id => if id = laptopID then some rating else r.ratings id }, rating)

/-! ## service/laptop_server.go: RateLaptop -/

/-- The message `pb.RateLaptopRequest`. -/
structure RateLaptopRequest (F : Type) where
  LaptopId : String
  Score : F

/-- The message `pb.RateLaptopResponse`; `RatedCount` is a uint32. -/
structure RateLaptopResponse (F : Type) where
  LaptopId : String
  RatedCount : Nat
  AverageScore : F

/-- The stream `pb.LaptopService_RateLaptopServer` as the handler sees it: `recvs` are the
results of the successive `Recv` calls (after the last one the client has half-closed and
`Recv` gives `io.EOF`), `ctxErr k` is the value of `stream.Context().Err()` at the check
of loop iteration `k` (counted from 0), and `SendOk k` tells whether the `Send` call
number `k` (counted from 0) returns a nil error. -/
structure RateLaptopStream (F : Type) where
  recvs : List (RecvResult (RateLaptopRequest F))
  ctxErr : Nat → CtxErr
  SendOk : Nat → Bool

/-- What one run of `RateLaptop` did: the returned error, the number of `Recv` calls, the
responses handed to `stream.Send` in call order, the status (if any) that was handed to
`logError` before a `break`, and the rating store after the run. -/
structure RateOutcome (σ F : Type) where
  err : Option Code
  recvCalls : Nat
  sent : List (RateLaptopResponse F)
  logged : Option Code
  store : σ

/-- The response built at lines 205 to 209 from the rating that `Add` returned:
`RatedCount: rating.Count`, `AverageScore: rating.Sum / float64(rating.Count)`. -/
def rateResponse {F : Type} (ops : Float64Ops F) (laptopID : String) (rating : Rating F) :
    RateLaptopResponse F :=
  { LaptopId := laptopID,
    RatedCount := rating.Count,
    AverageScore := ops.div rating.Sum (ops.ofUInt32 rating.Count) }

/-- The `for` loop of `RateLaptop` followed by its final `return nil`, started at iteration
`iter` with the responses `sent` so far. `Find` is `server.laptopStore.Find`; `Add` is
`server.ratingStore.Add`, giving the store after the call and an error or the rating. Every
`break` leaves the loop for the `return nil` of line 216; only the context check returns
from inside the loop. -/
def rateLoop {σ F : Type} (ops : Float64Ops F) (Find : String → FindResult)
    (Add : σ → String → F → σ × Except String (Rating F))
    (ctxErr : Nat → CtxErr) (SendOk : Nat → Bool)
    (recvs : List (RecvResult (RateLaptopRequest F)))
    (iter : Nat) (sent : List (RateLaptopResponse F)) (store : σ) : RateOutcome σ F :=
  match contextError (ctxErr iter) with
  | some err =>
    { err := some err, recvCalls := iter, sent := sent, logged := some err, store := store }
  | none =>
    match recvs with
    | [] =>
      { err := none, recvCalls := iter + 1, sent := sent, logged := none, store := store }
    | RecvResult.EOF :: _ =>
      { err := none, recvCalls := iter + 1, sent := sent, logged := none, store := store }
    | RecvResult.failure :: _ =>
      { err := none, recvCalls := iter + 1, sent := sent, logged := some Code.Unknown,
        store := store }
    | RecvResult.msg req :: rest =>
      let laptopID := req.LaptopId
      let score := req.Score
      match Find laptopID with
      | FindResult.failure =>
        { err := none, recvCalls := iter + 1, sent := sent, logged := some Code.Internal,
          store := store }
      | FindResult.absent =>
        { err := none, recvCalls := iter + 1, sent := sent, logged := some Code.NotFound,
          store := store }
      | FindResult.found _ =>
        match Add store laptopID score with
        | (store, Except.error _) =>
          { err := none, recvCalls := iter + 1, sent := sent, logged := some Code.Internal,
            store := store }
        | (store, Except.ok rating) =>
          let res := rateResponse ops laptopID rating
          if SendOk sent.length then
            rateLoop ops Find Add ctxErr SendOk rest (iter + 1) (sent ++ [res]) store
          else
            { err := none, recvCalls := iter + 1, sent := sent ++ [res],
              logged := some Code.Unknown, store := store }

/-- The handler `(*LaptopServer).RateLaptop(stream)`, run against the rating store
state `store`. -/
def RateLaptop {σ F : Type} (ops : Float64Ops F) (Find : String → FindResult)
    (Add : σ → String → F → σ × Except String (Rating F))
    (stream : RateLaptopStream F) (store : σ) : RateOutcome σ F :=
  rateLoop ops Find Add stream.ctxErr stream.SendOk stream.recvs 0 [] store

/-- The in-memory rating store behind the `RatingStore` interface, as wired in
`cmd/server/main.go`. -/
def inMemoryAdd {F : Type} (ops : Float64Ops F) (r : InMemoryRatingStore F)
    (laptopID : String) (score : F) : InMemoryRatingStore F × Except String (Rating F) :=
  ((r.Add ops laptopID score).1, Except.ok (r.Add ops laptopID score).2)

/-- The rating that `Add` starts from for a laptop: the stored one, or the zero value
`&Rating{}` when the map has none. -/
def currentRating {F : Type} (ops : Float64Ops F) (r : InMemoryRatingStore F)
    (laptopID : String) : Rating F :=
  match r.ratings laptopID with
  | some rating => rating
  | none => { Count := 0, Sum := ops.zero }

/-- The rating events of one client for one laptop: one message per score, in order. -/
def ratingEvents {F : Type} (laptopID : String) (scores : List F) :
    List (RecvResult (RateLaptopRequest F)) :=
  scores.map (fun score => RecvResult.msg { LaptopId := laptopID, Score := score })

/-- A stream of two rating events for `laptop-1`, scores 4.0 then 5.0, on a live context
with every `Send` delivered. -/
def sampleRatingStream : RateLaptopStream Float :=
  { recvs := ratingEvents "laptop-1" [4.0, 5.0],
    ctxErr := fun _ => CtxErr.nil,
    SendOk := fun _ => true }

/-- A stream whose first event names `laptop-2`, which the sample laptop store does not
hold, followed by an event for the existing `laptop-1`; live context, every `Send`
delivered. -/
def unknownLaptopStream : RateLaptopStream Float :=
  { recvs := [RecvResult.msg { LaptopId := "laptop-2", Score := 4.0 },
              RecvResult.msg { LaptopId := "laptop-1", Score := 5.0 }],
    ctxErr := fun _ => CtxErr.nil,
    SendOk := fun _ => true }

/-! ## service/user.go and service/user_store.go -/

/-- The struct `User` (the field name `HasedPassword` is the one of the source). -/
structure User where
  Username : String
  HasedPassword : String
  Role : String
  deriving DecidableEq, Repr

/-- The method `(*User).Clone()`: a fresh struct with the three fields copied. -/
def User.Clone (user : User) : User :=
  { Username := user.Username,
    HasedPassword := user.HasedPassword,
    Role := user.Role }

/-- The sentinel errors that the stores return. -/
inductive StoreError where
  | ErrAlreadyExists
  deriving DecidableEq, Repr

/-- The struct `InMemoryUserStore`: the map `users` read as a lookup; a key that is absent
or holds a nil pointer reads as `none`. The mutex is not modelled. -/
structure InMemoryUserStore where
  users : String → Option User

/-- The constructor `NewInMemoryUserStore()`. -/
def NewInMemoryUserStore : InMemoryUserStore :=
  { users := fun _ => none }

/-- The method `(*InMemoryUserStore).Save(user)`: the store after the call and the
returned error. -/
def InMemoryUserStore.Save (u : InMemoryUserStore) (user : User) :
    InMemoryUserStore × Option StoreError :=
  match u.users user.Username with
  | some _ => (u, some StoreError.ErrAlreadyExists)
  | none =>
    ({ users := fun username =>
         if username = user.Username then some user.Clone else u.users username },
     none)

/-- The method `(*InMemoryUserStore).Find(username)`: nil when the map has no user, else a
clone of the stored one. The returned error is always nil. -/
def InMemoryUserStore.Find (u : InMemoryUserStore) (username : String) : Option User :=
  match u.users username with
  | none => none
  | some user => some user.Clone

/-- The store after `seedUsers` of `cmd/server/main.go`, with sample password hashes. -/
def seededUserStore : InMemoryUserStore :=
  ((NewInMemoryUserStore.Save
      { Username := "admin1", HasedPassword := "hash-a", Role := "admin" }).1.Save
      { Username := "user1", HasedPassword := "hash-u", Role := "user" }).1

/-! ## client/auth_interceptor.go -/

namespace Client

/-- The outgoing side of a `context.Context`: the key-value pairs of the outgoing
metadata, in the order they were appended. -/
structure Context where
  outgoing : List (String × String)
  deriving DecidableEq, Repr

/-- The library call `metadata.AppendToOutgoingContext(ctx, key, value)`: a context whose
outgoing metadata has the pair appended (the key `authorization` is already lower case). -/
def AppendToOutgoingContext (ctx : Context) (key value : String) : Context :=
  { outgoing := ctx.outgoing ++ [(key, value)] }

/-- The struct `client.AuthInterceptor`: the map `authMethods` read as a plain lookup (a
missing key reads as false) and the current `accessToken`. The field `authClient` is used
by the refresh only. -/
structure AuthInterceptor where
  authMethods : String → Bool
  accessToken : String

/-- The method `(*AuthInterceptor).attachToken(ctx)`. -/
def AuthInterceptor.attachToken (i : AuthInterceptor) (ctx : Context) : Context :=
  AppendToOutgoingContext ctx "authorization" i.accessToken

/-- The closure returned by `(*AuthInterceptor).Unary()`, applied to a call: `invoker` is
the continuation that dispatches the call, given the context and the method (the request,
reply, connection and options are passed through unchanged). -/
def AuthInterceptor.Unary {R : Type} (i : AuthInterceptor) (ctx : Context) (method : String)
    (invoker : Context → String → R) : R :=
  if i.authMethods method then
    invoker (i.attachToken ctx) method
  else
    invoker ctx method

/-- The closure returned by `(*AuthInterceptor).Stream()`, applied to a call: `streamer` is
the continuation that opens the stream, given the context and the method (the stream
descriptor, connection and options are passed through unchanged). -/
def AuthInterceptor.Stream {R : Type} (i : AuthInterceptor) (ctx : Context) (method : String)
    (streamer : Context → String → R) : R :=
  if i.authMethods method then
    streamer (i.attachToken ctx) method
  else
    streamer ctx method

/-- The protected set of a sample client: CreateLaptop, UploadImage and RateLaptop are
mapped to true. -/
def sampleAuthMethods (method : String) : Bool :=
  if method = "/pcbook.pcbook.LaptopService/CreateLaptop" then true
  else if method = "/pcbook.pcbook.LaptopService/UploadImage" then true
  else if method = "/pcbook.pcbook.LaptopService/RateLaptop" then true
  else false

/-- A sample client interceptor holding the token `tok-admin`. -/
def sampleClient : AuthInterceptor :=
  { authMethods := sampleAuthMethods, accessToken := "tok-admin" }

/-- The constant `time.Second`: one second as a `time.Duration`, a count of nanoseconds. -/
def Second : Int := 1000000000

/-- The method `(*AuthInterceptor).refreshToken()`, given the pair that
`i.authClient.Login()` returns (an error, or the access token): the interceptor after the
call and the returned error. -/
def AuthInterceptor.refreshToken (i : AuthInterceptor) (login : Except String String) :
    AuthInterceptor × Option String :=
  match login with
  | Except.error err => (i, some err)
  | Except.ok accessToken =>
    ({ authMethods := i.authMethods, accessToken := accessToken }, none)

/-- The state of the goroutine started by `scheduleTokenRefresh`, at the top of its `for`
loop: the interceptor it shares, the local variable `wait`, and the durations handed to
`time.Sleep` so far, in call order. -/
structure RefreshState where
  interceptor : AuthInterceptor
  wait : Int
  slept : List Int

/-- One iteration of the `for` loop of `scheduleTokenRefresh` (lines 63 to 71):
`time.Sleep(wait)`, then `refreshToken()` on the given `Login` result, then `wait` is set
to `time.Second` on an error and to `refreshDuration` otherwise. -/
def refreshIteration (refreshDuration : Int) (st : RefreshState)
    (login : Except String String) : RefreshState :=
  match st.interceptor.refreshToken login with
  | (i, some _) =>
    { interceptor := i, wait := Second, slept := st.slept ++ [st.wait] }
  | (i, none) =>
    { interceptor := i, wait := refreshDuration, slept := st.slept ++ [st.wait] }

/-- The `for` loop of `scheduleTokenRefresh` run for as many iterations as there are
`Login` results in the list, from the state `st`. -/
def refreshLoop (refreshDuration : Int) (st : RefreshState) :
    List (Except String String) → RefreshState
  | [] => st
  | login :: later => refreshLoop refreshDuration (refreshIteration refreshDuration st login) later

/-- The method `(*AuthInterceptor).scheduleTokenRefresh(refreshDuration)`: `first` is the
result of the synchronous `Login`, `later` are the results of the `Login` calls of the
goroutine that have completed. On an error of the first login the error is returned and no
goroutine is started; otherwise nil is returned and the goroutine starts with
`wait := refreshDuration`. -/
def AuthInterceptor.scheduleTokenRefresh (i : AuthInterceptor) (refreshDuration : Int)
    (first : Except String String) (later : List (Except String String)) :
    Option String × RefreshState :=
  match i.refreshToken first with
  | (i, some err) => (some err, { interceptor := i, wait := refreshDuration, slept := [] })
  | (i, none) =>
    (none, refreshLoop refreshDuration
      { interceptor := i, wait := refreshDuration, slept := [] } later)

end Client

/-! ## Theorems: server-side authorize -/

theorem roleInList_eq_true_iff (claimsRole : String) (roles : List String) :
    roleInList claimsRole roles = true ↔ claimsRole ∈ roles := by
  induction roles with
  | nil => simp [roleInList]
  | cons r rest ih =>
    by_cases h : claimsRole = r
    · simp [roleInList, h]
    · simp [roleInList, h, ih]


/-- C1. For a method that is a key of the access policy, `authorize` fails with
Unauthenticated when the incoming metadata is missing, when it has no value under
"authorization", or when `Verify` rejects the first such value; it fails with
PermissionDenied when `Verify` accepts the token and the role of the claims is not in the
allowed-role list of the method; and it returns no error when `Verify` accepts the token
and the role is in that list. -/
theorem authorize_protected_method (u : AuthInterceptor) (method : String)
    (roles : List String) (hkey : u.accessibleRoles method = some roles) :
    (authorize u none method).err = some Code.Unauthenticated ∧
    (∀ md : MD, md "authorization" = [] →
      (authorize u (some md) method).err = some Code.Unauthenticated) ∧
    (∀ (md : MD) (token : String) (more : List String) (e : String),
      md "authorization" = token :: more → u.Verify token = Except.error e →
      (authorize u (some md) method).err = some Code.Unauthenticated) ∧
    (∀ (md : MD) (token : String) (more : List String) (claims : UserClaims),
      md "authorization" = token :: more → u.Verify token = Except.ok claims →
      claims.Role ∉ roles →
      (authorize u (some md) method).err = some Code.PermissionDenied) ∧
    (∀ (md : MD) (token : String) (more : List String) (claims : UserClaims),
      md "authorization" = token :: more → u.Verify token = Except.ok claims →
      claims.Role ∈ roles →
      (authorize u (some md) method).err = none) := by
  refine ⟨?_, ?_, ?_, ?_, ?_⟩
  · simp [authorize, hkey]
  · intro md hmd
    simp [authorize, hkey, hmd]
  · intro md token more e hmd hv
    simp [authorize, hkey, hmd, hv]
  · intro md token more claims hmd hv hrole
    have hnot : roleInList claims.Role roles = false := by
      cases hr : roleInList claims.Role roles with
      | false => rfl
      | true => exact absurd ((roleInList_eq_true_iff _ _).1 hr) hrole
    simp [authorize, hkey, hmd, hv, hnot]
  · intro md token more claims hmd hv hrole
    have hin : roleInList claims.Role roles = true := (roleInList_eq_true_iff _ _).2 hrole
    simp [authorize, hkey, hmd, hv, hin]

/-- Witness for C1 on the policy of `cmd/server/main.go`: UploadImage is admin-only; no
metadata, no token and a rejected token give Unauthenticated, the token of a `user` gives
PermissionDenied, the token of an `admin` is admitted. -/
theorem authorize_protected_method_witness :
    sampleInterceptor.accessibleRoles "/pcbook.pcbook.LaptopService/UploadImage"
      = some ["admin"] ∧
    (authorize sampleInterceptor none "/pcbook.pcbook.LaptopService/UploadImage").err
      = some Code.Unauthenticated ∧
    (authorize sampleInterceptor (some (mdWithAuthorization []))
      "/pcbook.pcbook.LaptopService/UploadImage").err = some Code.Unauthenticated ∧
    (authorize sampleInterceptor (some (mdWithAuthorization ["garbage"]))
      "/pcbook.pcbook.LaptopService/UploadImage").err = some Code.Unauthenticated ∧
    (authorize sampleInterceptor (some (mdWithAuthorization ["tok-user", "tok-admin"]))
      "/pcbook.pcbook.LaptopService/UploadImage").err = some Code.PermissionDenied ∧
    (authorize sampleInterceptor (some (mdWithAuthorization ["tok-admin"]))
      "/pcbook.pcbook.LaptopService/UploadImage").err = none :=
  have h := authorize_protected_method sampleInterceptor
    "/pcbook.pcbook.LaptopService/UploadImage" ["admin"] (by decide)
  ⟨by decide, h.1,
    h.2.1 (mdWithAuthorization []) (by decide),
    h.2.2.1 (mdWithAuthorization ["garbage"]) "garbage" [] "invalid token"
      (by decide) rfl,
    h.2.2.2.1 (mdWithAuthorization ["tok-user", "tok-admin"]) "tok-user" ["tok-admin"]
      { Username := "user1", Role := "user" } (by decide) rfl (by decide),
    h.2.2.2.2 (mdWithAuthorization ["tok-admin"]) "tok-admin" []
      { Username := "admin1", Role := "admin" } (by decide) rfl (by decide)⟩

/-- C2. For a method that is not a key of the access policy, `authorize` returns no error
and makes no call to `Verify`, whatever the incoming metadata is (absent, empty, or
carrying any tokens) and whatever the token manager would answer. -/
theorem authorize_open_method (u : AuthInterceptor) (incoming : Option MD) (method : String)
    (hopen : u.accessibleRoles method = none) :
    (authorize u incoming method).err = none ∧
    (authorize u incoming method).verifyCalls = [] := by
  simp [authorize, hopen]

/-- Witness for C2 on the policy of `cmd/server/main.go`: SearchLaptop is not a key, and
a call carrying a token that `Verify` would reject is admitted without a `Verify` call. -/
theorem authorize_open_method_witness :
    sampleInterceptor.accessibleRoles "/pcbook.pcbook.LaptopService/SearchLaptop" = none ∧
    (authorize sampleInterceptor (some (mdWithAuthorization ["garbage"]))
      "/pcbook.pcbook.LaptopService/SearchLaptop").err = none ∧
    (authorize sampleInterceptor (some (mdWithAuthorization ["garbage"]))
      "/pcbook.pcbook.LaptopService/SearchLaptop").verifyCalls = [] :=
  ⟨by decide, authorize_open_method sampleInterceptor (some (mdWithAuthorization ["garbage"]))
    "/pcbook.pcbook.LaptopService/SearchLaptop" (by decide)⟩


/-! ## Theorems: UploadImage -/

theorem maxImageSize_eq : maxImageSize = 1048576 := rfl

theorem totalSize_nil : totalSize [] = 0 := rfl

theorem totalSize_cons (m : UploadImageRequest) (msgs : List UploadImageRequest) :
    totalSize (m :: msgs) = m.GetChunkData.length + totalSize msgs := by
  simp [totalSize, chunksOf]

theorem totalSize_append (xs ys : List UploadImageRequest) :
    totalSize (xs ++ ys) = totalSize xs + totalSize ys := by
  simp [totalSize, chunksOf, List.sum_append]

theorem length_flatten_chunksOf (msgs : List UploadImageRequest) :
    (chunksOf msgs).flatten.length = totalSize msgs := by
  induction msgs with
  | nil => rfl
  | cons m msgs ih =>
    rw [totalSize_cons, ← ih]
    simp [chunksOf]

theorem fullChunk_length : fullChunk.GetChunkData.length = 1048576 :=
  List.length_replicate 1048576 0

theorem oneByteChunk_length : oneByteChunk.GetChunkData.length = 1 := rfl

/-- The loop of `UploadImage` returns the context error at the check of an iteration,
before the `Recv` of that iteration. -/
theorem receiveChunks_of_contextError (ctxErr : Nat → CtxErr)
    (recvs : List (RecvResult UploadImageRequest)) (iter : Nat) (imageData : List Byte)
    (imageSize : Nat) (err : Code) (h : contextError (ctxErr iter) = some err) :
    receiveChunks ctxErr recvs iter imageData imageSize
      = ChunkLoopExit.returned err imageData (iter + 1) := by
  cases recvs with
  | nil => rw [receiveChunks]; simp only [h]
  | cons r rest =>
    cases r with
    | msg req => rw [receiveChunks]; simp only [h]
    | EOF => rw [receiveChunks]; simp only [h]
    | failure => rw [receiveChunks]; simp only [h]

/-- The loop of `UploadImage` takes in every message of `accepted` when the context is
live at each of these iterations and the running total stays within `maxImageSize`. -/
theorem receiveChunks_accept (ctxErr : Nat → CtxErr) (accepted : List UploadImageRequest) :
    ∀ (later : List (RecvResult UploadImageRequest)) (iter : Nat) (imageData : List Byte)
      (imageSize : Nat),
      (∀ k, iter ≤ k → k < iter + accepted.length → ctxErr k = CtxErr.nil) →
      imageSize + totalSize accepted ≤ maxImageSize →
      receiveChunks ctxErr (accepted.map RecvResult.msg ++ later) iter imageData imageSize
        = receiveChunks ctxErr later (iter + accepted.length)
            (imageData ++ (chunksOf accepted).flatten) (imageSize + totalSize accepted) := by
  induction accepted with
  | nil =>
    intro later iter imageData imageSize _ _
    simp [chunksOf, totalSize]
  | cons m accepted ih =>
    intro later iter imageData imageSize hctx hfit
    have h0 : ctxErr iter = CtxErr.nil := hctx iter (le_refl _) (by simp)
    rw [totalSize_cons] at hfit
    have hstep : ¬ (imageSize + m.GetChunkData.length > maxImageSize) := by omega
    have hrec := ih later (iter + 1) (imageData ++ m.GetChunkData)
      (imageSize + m.GetChunkData.length)
      (fun k hk1 hk2 => hctx k (by omega) (by simp only [List.length_cons]; omega))
      (by omega)
    rw [List.map_cons, List.cons_append, receiveChunks]
    simp only [h0, contextError, hstep, if_false]
    rw [hrec, totalSize_cons]
    simp only [chunksOf, List.map_cons, List.flatten_cons, List.length_cons,
      List.append_assoc]
    congr 1
    · omega
    · omega


/-- C3. UploadImage for an existing owner laptop, the context live and every receive
giving a message: when the messages `accepted` keep the running total of chunk lengths
within `maxImageSize` (1048576 bytes) and the next message `m` takes it above, the handler
returns InvalidArgument, makes no call of `Save`, and stops receiving right after `m`
(whatever the stream holds later); the buffer holds the chunks of `accepted` only. -/
theorem UploadImage_over_limit (Find : String → FindResult)
    (Save : String → String → List Byte → Except String String)
    (ctxErr : Nat → CtxErr) (sendAndClose : UploadImageResponse → Bool)
    (first : UploadImageRequest) (laptop : Laptop)
    (accepted : List UploadImageRequest) (m : UploadImageRequest)
    (later : List (RecvResult UploadImageRequest))
    (hfind : Find (GetLaptopId first.GetInfo) = FindResult.found laptop)
    (hctx : ∀ k, k ≤ accepted.length → ctxErr k = CtxErr.nil)
    (hfit : totalSize accepted ≤ maxImageSize)
    (hover : totalSize (accepted ++ [m]) > maxImageSize) :
    UploadImage Find Save
      { recvs := RecvResult.msg first :: (accepted.map RecvResult.msg
          ++ RecvResult.msg m :: later),
        ctxErr := ctxErr, SendAndClose := sendAndClose }
      = { err := some Code.InvalidArgument,
          recvCalls := accepted.length + 2,
          imageData := (chunksOf accepted).flatten,
          saveCalls := [],
          response := none } := by
  have hloop := receiveChunks_accept ctxErr accepted (RecvResult.msg m :: later) 0 [] 0
    (fun k _ hk => hctx k (by omega)) (by omega)
  have hlast : ctxErr accepted.length = CtxErr.nil := hctx _ (le_refl _)
  have hbig : totalSize accepted + m.GetChunkData.length > maxImageSize := by
    rw [totalSize_append, totalSize_cons, totalSize_nil] at hover
    omega
  simp only [UploadImage, hfind, hloop, Nat.zero_add, List.nil_append]
  rw [receiveChunks]
  simp only [hlast, contextError, hbig, if_true]

/-- Witness for C3: one chunk of exactly 1048576 bytes is accepted and a second chunk of
a single byte takes the total to 1048577. -/
theorem UploadImage_over_limit_witness :
    sampleFind (GetLaptopId sampleInfo.GetInfo) = FindResult.found { Id := "laptop-1" } ∧
    totalSize [fullChunk] ≤ maxImageSize ∧
    totalSize ([fullChunk] ++ [oneByteChunk]) > maxImageSize ∧
    UploadImage sampleFind sampleSave
      { recvs := RecvResult.msg sampleInfo ::
          ([fullChunk].map RecvResult.msg ++ RecvResult.msg oneByteChunk :: [RecvResult.EOF]),
        ctxErr := fun _ => CtxErr.nil, SendAndClose := fun _ => true }
      = { err := some Code.InvalidArgument,
          recvCalls := [fullChunk].length + 2,
          imageData := (chunksOf [fullChunk]).flatten,
          saveCalls := [],
          response := none } :=
  have hfit : totalSize [fullChunk] ≤ maxImageSize := by
    rw [totalSize_cons, totalSize_nil, fullChunk_length, maxImageSize_eq]
  have hover : totalSize ([fullChunk] ++ [oneByteChunk]) > maxImageSize := by
    rw [totalSize_append, totalSize_cons, totalSize_cons, totalSize_nil, fullChunk_length,
      oneByteChunk_length, maxImageSize_eq]
    decide
  ⟨by decide, hfit, hover,
    UploadImage_over_limit sampleFind sampleSave (fun _ => CtxErr.nil) (fun _ => true)
      sampleInfo { Id := "laptop-1" } [fullChunk] oneByteChunk [RecvResult.EOF]
      (by decide) (fun _ _ => rfl) hfit hover⟩


/-- C4. UploadImage for an existing owner laptop, the context live, with `Save` and
`SendAndClose` succeeding: when the messages `msgs` are followed by end of stream and the
total of their chunk lengths is at most `maxImageSize` (1048576, boundary included), the
handler returns no error, calls `Save` exactly once with the owner id, the type tag and
the concatenation of the chunks in arrival order, and responds with the id returned by
`Save` and a size equal to the sum of the chunk lengths (the uint32 conversion is exact). -/
theorem UploadImage_within_limit (Find : String → FindResult)
    (Save : String → String → List Byte → Except String String)
    (ctxErr : Nat → CtxErr) (sendAndClose : UploadImageResponse → Bool)
    (first : UploadImageRequest) (laptop : Laptop)
    (msgs : List UploadImageRequest) (eos : List (RecvResult UploadImageRequest))
    (imageID : String)
    (hfind : Find (GetLaptopId first.GetInfo) = FindResult.found laptop)
    (hctx : ∀ k, k ≤ msgs.length → ctxErr k = CtxErr.nil)
    (heos : eos = [] ∨ ∃ later, eos = RecvResult.EOF :: later)
    (hfit : totalSize msgs ≤ maxImageSize)
    (hsave : Save (GetLaptopId first.GetInfo) (GetImageType first.GetInfo)
      (chunksOf msgs).flatten = Except.ok imageID)
    (hsend : sendAndClose { Id := imageID, Size := totalSize msgs } = true) :
    UploadImage Find Save
      { recvs := RecvResult.msg first :: (msgs.map RecvResult.msg ++ eos),
        ctxErr := ctxErr, SendAndClose := sendAndClose }
      = { err := none,
          recvCalls := msgs.length + 2,
          imageData := (chunksOf msgs).flatten,
          saveCalls := [{ laptopID := GetLaptopId first.GetInfo,
                          imageType := GetImageType first.GetInfo,
                          imageData := (chunksOf msgs).flatten }],
          response := some { Id := imageID, Size := ((chunksOf msgs).map List.length).sum } } := by
  have hloop := receiveChunks_accept ctxErr msgs eos 0 [] 0
    (fun k _ hk => hctx k (by omega)) (by omega)
  have hlast : ctxErr msgs.length = CtxErr.nil := hctx _ (le_refl _)
  have hend : receiveChunks ctxErr eos msgs.length (chunksOf msgs).flatten (totalSize msgs)
      = ChunkLoopExit.finished (chunksOf msgs).flatten (totalSize msgs) (msgs.length + 2) := by
    rcases heos with h | ⟨later, h⟩ <;> subst h <;> rw [receiveChunks] <;>
      simp only [hlast, contextError]
  have hsmall : totalSize msgs % 2 ^ 32 = totalSize msgs := by
    apply Nat.mod_eq_of_lt
    rw [maxImageSize_eq] at hfit
    omega
  simp only [UploadImage, hfind, hloop, Nat.zero_add, List.nil_append, hend, hsave, hsmall,
    hsend, if_true]
  rfl

/-- Witness for C4: a single chunk of exactly 1048576 bytes followed by end of stream. -/
theorem UploadImage_within_limit_witness :
    totalSize [fullChunk] ≤ maxImageSize ∧
    UploadImage sampleFind sampleSave
      { recvs := RecvResult.msg sampleInfo :: ([fullChunk].map RecvResult.msg
          ++ [RecvResult.EOF]),
        ctxErr := fun _ => CtxErr.nil, SendAndClose := fun _ => true }
      = { err := none,
          recvCalls := [fullChunk].length + 2,
          imageData := (chunksOf [fullChunk]).flatten,
          saveCalls := [{ laptopID := GetLaptopId sampleInfo.GetInfo,
                          imageType := GetImageType sampleInfo.GetInfo,
                          imageData := (chunksOf [fullChunk]).flatten }],
          response := some { Id := "image-1",
                             Size := ((chunksOf [fullChunk]).map List.length).sum } } :=
  have hfit : totalSize [fullChunk] ≤ maxImageSize := by
    rw [totalSize_cons, totalSize_nil, fullChunk_length, maxImageSize_eq]
  ⟨hfit,
    UploadImage_within_limit sampleFind sampleSave (fun _ => CtxErr.nil) (fun _ => true)
      sampleInfo { Id := "laptop-1" } [fullChunk] [RecvResult.EOF] "image-1"
      (by decide) (fun _ _ => rfl) (Or.inr ⟨[], rfl⟩) hfit rfl rfl⟩

/-- C7. UploadImage under cancellation, for an existing owner laptop: when `k` chunk
messages `accepted` were taken in (context live at their checks, running total within the
limit) and the check that precedes the next receive sees the context canceled, the handler
returns Canceled (DeadlineExceeded when the context error is deadline-exceeded), makes no
further `Recv` call, leaves the buffer at the chunks of `accepted`, and makes no call of
`Save`. -/
theorem UploadImage_canceled (Find : String → FindResult)
    (Save : String → String → List Byte → Except String String)
    (ctxErr : Nat → CtxErr) (sendAndClose : UploadImageResponse → Bool)
    (first : UploadImageRequest) (laptop : Laptop)
    (accepted : List UploadImageRequest) (later : List (RecvResult UploadImageRequest))
    (hfind : Find (GetLaptopId first.GetInfo) = FindResult.found laptop)
    (hctx : ∀ k, k < accepted.length → ctxErr k = CtxErr.nil)
    (hfit : totalSize accepted ≤ maxImageSize)
    (hcancel : ctxErr accepted.length ≠ CtxErr.nil) :
    UploadImage Find Save
      { recvs := RecvResult.msg first :: (accepted.map RecvResult.msg ++ later),
        ctxErr := ctxErr, SendAndClose := sendAndClose }
      = { err := some (if ctxErr accepted.length = CtxErr.DeadlineExceeded
                        then Code.DeadlineExceeded else Code.Canceled),
          recvCalls := accepted.length + 1,
          imageData := (chunksOf accepted).flatten,
          saveCalls := [],
          response := none } := by
  have hloop := receiveChunks_accept ctxErr accepted later 0 [] 0
    (fun k _ hk => hctx k (by omega)) (by omega)
  simp only [UploadImage, hfind, hloop, Nat.zero_add, List.nil_append]
  cases hc : ctxErr accepted.length with
  | nil => exact absurd hc hcancel
  | Canceled =>
    rw [receiveChunks_of_contextError ctxErr later _ _ _ Code.Canceled (by rw [hc]; rfl)]
    simp
  | DeadlineExceeded =>
    rw [receiveChunks_of_contextError ctxErr later _ _ _ Code.DeadlineExceeded
      (by rw [hc]; rfl)]
    simp

/-- Witness for C7: the context is canceled after two chunks were accepted; the third
message waiting on the stream is never received. -/
theorem UploadImage_canceled_witness :
    totalSize [oneByteChunk, oneByteChunk] ≤ maxImageSize ∧
    UploadImage sampleFind sampleSave
      { recvs := RecvResult.msg sampleInfo :: ([oneByteChunk, oneByteChunk].map RecvResult.msg
          ++ [RecvResult.msg oneByteChunk, RecvResult.EOF]),
        ctxErr := fun k => if k < 2 then CtxErr.nil else CtxErr.Canceled,
        SendAndClose := fun _ => true }
      = { err := some Code.Canceled,
          recvCalls := 3,
          imageData := [7, 7],
          saveCalls := [],
          response := none } :=
  have hfit : totalSize [oneByteChunk, oneByteChunk] ≤ maxImageSize := by decide
  ⟨hfit,
    UploadImage_canceled sampleFind sampleSave
      (fun k => if k < 2 then CtxErr.nil else CtxErr.Canceled) (fun _ => true)
      sampleInfo { Id := "laptop-1" } [oneByteChunk, oneByteChunk]
      [RecvResult.msg oneByteChunk, RecvResult.EOF]
      (by decide) (fun k hk => if_pos hk) hfit (by decide)⟩

/-- C8. UploadImage for an unknown owner: when `Find` on the laptop id of the first
message returns an error or no laptop, the handler returns NotFound after the single
`Recv` of that first message; the buffer is empty and `Save` is not called, whatever the
stream holds after the first message. -/
theorem UploadImage_unknown_owner (Find : String → FindResult)
    (Save : String → String → List Byte → Except String String)
    (ctxErr : Nat → CtxErr) (sendAndClose : UploadImageResponse → Bool)
    (first : UploadImageRequest) (later : List (RecvResult UploadImageRequest))
    (hfind : Find (GetLaptopId first.GetInfo) = FindResult.absent ∨
      Find (GetLaptopId first.GetInfo) = FindResult.failure) :
    UploadImage Find Save
      { recvs := RecvResult.msg first :: later, ctxErr := ctxErr,
        SendAndClose := sendAndClose }
      = { err := some Code.NotFound, recvCalls := 1, imageData := [], saveCalls := [],
          response := none } := by
  rcases hfind with h | h <;> simp only [UploadImage, h]

/-- Witness for C8: an upload for the id `laptop-2`, which the sample store does not
hold, with a chunk waiting on the stream. -/
theorem UploadImage_unknown_owner_witness :
    sampleFind (GetLaptopId (UploadImageRequest.Info
      { LaptopId := "laptop-2", ImageType := ".jpg" }).GetInfo) = FindResult.absent ∧
    UploadImage sampleFind sampleSave
      { recvs := RecvResult.msg (UploadImageRequest.Info
          { LaptopId := "laptop-2", ImageType := ".jpg" })
          :: [RecvResult.msg oneByteChunk, RecvResult.EOF],
        ctxErr := fun _ => CtxErr.nil, SendAndClose := fun _ => true }
      = { err := some Code.NotFound, recvCalls := 1, imageData := [], saveCalls := [],
          response := none } :=
  ⟨by decide,
    UploadImage_unknown_owner sampleFind sampleSave (fun _ => CtxErr.nil) (fun _ => true)
      (UploadImageRequest.Info { LaptopId := "laptop-2", ImageType := ".jpg" })
      [RecvResult.msg oneByteChunk, RecvResult.EOF] (Or.inl (by decide))⟩


/-! ## Theorems: RateLaptop -/

theorem currentRating_Add {F : Type} (ops : Float64Ops F) (r : InMemoryRatingStore F)
    (laptopID : String) (score : F) :
    currentRating ops (r.Add ops laptopID score).1 laptopID
      = { Count := ((currentRating ops r laptopID).Count + 1) % 2 ^ 32,
          Sum := ops.add (currentRating ops r laptopID).Sum score } := by
  simp only [currentRating, InMemoryRatingStore.Add, if_true]

theorem Add_snd {F : Type} (ops : Float64Ops F) (r : InMemoryRatingStore F)
    (laptopID : String) (score : F) :
    (r.Add ops laptopID score).2
      = { Count := ((currentRating ops r laptopID).Count + 1) % 2 ^ 32,
          Sum := ops.add (currentRating ops r laptopID).Sum score } := by
  simp only [currentRating, InMemoryRatingStore.Add]

/-- The loop of `RateLaptop` over the in-memory store, on a run of events for one
existing laptop with the context live and every `Send` delivered: one echo per event, in
order, each with the count and the running sum after its own event. -/
theorem rateLoop_events {F : Type} (ops : Float64Ops F) (Find : String → FindResult)
    (ctxErr : Nat → CtxErr) (SendOk : Nat → Bool) (laptopID : String) (laptop : Laptop)
    (hfind : Find laptopID = FindResult.found laptop)
    (hctx : ∀ k, ctxErr k = CtxErr.nil) (hsend : ∀ k, SendOk k = true)
    (scores : List F) :
    ∀ (iter : Nat) (sent : List (RateLaptopResponse F)) (store : InMemoryRatingStore F),
      (currentRating ops store laptopID).Count + scores.length < 2 ^ 32 →
      (rateLoop ops Find (inMemoryAdd ops) ctxErr SendOk (ratingEvents laptopID scores)
          iter sent store).err = none ∧
      (rateLoop ops Find (inMemoryAdd ops) ctxErr SendOk (ratingEvents laptopID scores)
          iter sent store).recvCalls = iter + scores.length + 1 ∧
      (rateLoop ops Find (inMemoryAdd ops) ctxErr SendOk (ratingEvents laptopID scores)
          iter sent store).sent
        = sent ++ (List.range scores.length).map (fun i =>
            { LaptopId := laptopID,
              RatedCount := (currentRating ops store laptopID).Count + (i + 1),
              AverageScore := ops.div
                ((scores.take (i + 1)).foldl ops.add (currentRating ops store laptopID).Sum)
                (ops.ofUInt32 ((currentRating ops store laptopID).Count + (i + 1))) }) := by
  induction scores with
  | nil =>
    intro iter sent store _
    simp [ratingEvents, rateLoop, hctx, contextError]
  | cons x rest ih =>
    intro iter sent store hcount
    simp only [List.length_cons] at hcount
    have hmod : ((currentRating ops store laptopID).Count + 1) % 2 ^ 32
        = (currentRating ops store laptopID).Count + 1 := Nat.mod_eq_of_lt (by omega)
    have hcur := currentRating_Add ops store laptopID x
    rw [hmod] at hcur
    have hsnd := Add_snd ops store laptopID x
    rw [hmod] at hsnd
    have hrec := ih (iter + 1)
      (sent ++ [rateResponse ops laptopID (store.Add ops laptopID x).2])
      (store.Add ops laptopID x).1 (by rw [hcur]; simp only; omega)
    have hunfold : rateLoop ops Find (inMemoryAdd ops) ctxErr SendOk
        (ratingEvents laptopID (x :: rest)) iter sent store
        = rateLoop ops Find (inMemoryAdd ops) ctxErr SendOk (ratingEvents laptopID rest)
            (iter + 1) (sent ++ [rateResponse ops laptopID (store.Add ops laptopID x).2])
            (store.Add ops laptopID x).1 := by
      simp only [ratingEvents, List.map_cons]
      rw [rateLoop]
      simp only [hctx, contextError, hfind, inMemoryAdd, hsend, if_true]
    rw [hunfold]
    refine ⟨hrec.1, ?_, ?_⟩
    · rw [hrec.2.1]; simp only [List.length_cons]; omega
    · rw [hrec.2.2, hcur, hsnd, List.append_assoc, List.length_cons, List.range_succ_eq_map,
        List.map_cons, List.map_map]
      simp only [rateResponse, List.singleton_append, List.take_succ_cons, List.foldl_cons,
        Nat.zero_add, List.take_zero, List.foldl_nil]
      congr 2
      apply List.map_congr_left
      intro i _
      have e : (currentRating ops store laptopID).Count + 1 + (i + 1)
          = (currentRating ops store laptopID).Count + (i + 1 + 1) := by omega
      simp only [Function.comp, e, Nat.succ_eq_add_one, List.take_succ_cons, List.foldl_cons]


/-- C5. RateLaptop over the in-memory rating store, for N >= 1 rating events (N < 2^32)
for one existing laptop on a single stream, the store holding no prior rating for that
laptop, the context live and every `Send` delivered: the handler returns no error and
sends exactly N echoes, in the order of the events; echo number i (from 1) carries the
laptop id, the count i and the average (s1+...+si)/i, the sum being the float64 sum
accumulated from the zero value in arrival order; so the last echo carries the count N and
the average (s1+...+sN)/N. -/
theorem RateLaptop_echoes {F : Type} (ops : Float64Ops F) (Find : String → FindResult)
    (ctxErr : Nat → CtxErr) (SendOk : Nat → Bool) (laptopID : String) (laptop : Laptop)
    (scores : List F) (store : InMemoryRatingStore F)
    (hN : 1 ≤ scores.length) (hlt : scores.length < 2 ^ 32)
    (hfind : Find laptopID = FindResult.found laptop)
    (hprior : store.ratings laptopID = none)
    (hctx : ∀ k, ctxErr k = CtxErr.nil) (hsend : ∀ k, SendOk k = true) :
    (RateLaptop ops Find (inMemoryAdd ops)
      { recvs := ratingEvents laptopID scores, ctxErr := ctxErr, SendOk := SendOk }
      store).err = none ∧
    (RateLaptop ops Find (inMemoryAdd ops)
      { recvs := ratingEvents laptopID scores, ctxErr := ctxErr, SendOk := SendOk }
      store).sent.length = scores.length ∧
    (RateLaptop ops Find (inMemoryAdd ops)
      { recvs := ratingEvents laptopID scores, ctxErr := ctxErr, SendOk := SendOk }
      store).sent
      = (List.range scores.length).map (fun i =>
          { LaptopId := laptopID,
            RatedCount := i + 1,
            AverageScore := ops.div ((scores.take (i + 1)).foldl ops.add ops.zero)
              (ops.ofUInt32 (i + 1)) }) ∧
    (RateLaptop ops Find (inMemoryAdd ops)
      { recvs := ratingEvents laptopID scores, ctxErr := ctxErr, SendOk := SendOk }
      store).sent.getLast?
      = some { LaptopId := laptopID,
               RatedCount := scores.length,
               AverageScore := ops.div (scores.foldl ops.add ops.zero)
                 (ops.ofUInt32 scores.length) } := by
  have hcur : currentRating ops store laptopID = { Count := 0, Sum := ops.zero } := by
    simp only [currentRating, hprior]
  have h := rateLoop_events ops Find ctxErr SendOk laptopID laptop hfind hctx hsend scores
    0 [] store (by rw [hcur]; simpa using hlt)
  rw [hcur] at h
  simp only [Nat.zero_add, List.nil_append] at h
  have hsent := h.2.2
  refine ⟨h.1, ?_, hsent, ?_⟩
  · simp only [RateLaptop]
    rw [hsent, List.length_map, List.length_range]
  · simp only [RateLaptop]
    rw [hsent]
    obtain ⟨n, hn⟩ : ∃ n, scores.length = n + 1 := ⟨scores.length - 1, by omega⟩
    rw [hn, List.range_succ, List.map_append, List.map_singleton,
      List.getLast?_append_of_ne_nil _ (by simp), List.getLast?_singleton, ← hn,
      List.take_length]

/-- Witness for C5 on float64 scores: two events, 4.0 then 5.0, for `laptop-1` against
the empty rating store give the echoes (1, (0+4)/1) and (2, ((0+4)+5)/2). -/
theorem RateLaptop_echoes_witness :
    1 ≤ ([4.0, 5.0] : List Float).length ∧
    ([4.0, 5.0] : List Float).length < 2 ^ 32 ∧
    sampleFind "laptop-1" = FindResult.found { Id := "laptop-1" } ∧
    (NewInMemoryRatingStore Float).ratings "laptop-1" = none ∧
    (RateLaptop float64Ops sampleFind (inMemoryAdd float64Ops) sampleRatingStream
      (NewInMemoryRatingStore Float)).err = none ∧
    (RateLaptop float64Ops sampleFind (inMemoryAdd float64Ops) sampleRatingStream
      (NewInMemoryRatingStore Float)).sent
      = [{ LaptopId := "laptop-1", RatedCount := 1,
           AverageScore := (0.0 + 4.0) / Float.ofNat 1 },
         { LaptopId := "laptop-1", RatedCount := 2,
           AverageScore := (0.0 + 4.0 + 5.0) / Float.ofNat 2 }] :=
  have h := RateLaptop_echoes float64Ops sampleFind (fun _ => CtxErr.nil) (fun _ => true)
    "laptop-1" { Id := "laptop-1" } [4.0, 5.0] (NewInMemoryRatingStore Float)
    (by decide) (by decide) (by decide) rfl (fun _ => rfl) (fun _ => rfl)
  ⟨by decide, by decide, by decide, rfl, h.1, h.2.2.1⟩

/-- The handler `RateLaptop` never returns a NotFound status: its only non-nil returns
are the context errors Canceled and DeadlineExceeded. -/
theorem rateLoop_err_ne_NotFound {σ F : Type} (ops : Float64Ops F)
    (Find : String → FindResult) (Add : σ → String → F → σ × Except String (Rating F))
    (ctxErr : Nat → CtxErr) (SendOk : Nat → Bool)
    (recvs : List (RecvResult (RateLaptopRequest F))) :
    ∀ (iter : Nat) (sent : List (RateLaptopResponse F)) (store : σ),
      (rateLoop ops Find Add ctxErr SendOk recvs iter sent store).err
        ≠ some Code.NotFound := by
  induction recvs with
  | nil =>
    intro iter sent store
    rw [rateLoop]
    cases ctxErr iter <;> simp [contextError]
  | cons r rest ih =>
    intro iter sent store
    cases r with
    | EOF => rw [rateLoop]; cases ctxErr iter <;> simp [contextError]
    | failure => rw [rateLoop]; cases ctxErr iter <;> simp [contextError]
    | msg req =>
      rw [rateLoop]
      cases ctxErr iter with
      | Canceled => simp [contextError]
      | DeadlineExceeded => simp [contextError]
      | nil =>
        simp only [contextError]
        cases Find req.LaptopId with
        | failure => simp
        | absent => simp
        | found laptop =>
          simp only
          rcases hadd : Add store req.LaptopId req.Score with ⟨store2, res⟩
          cases res with
          | error e => simp
          | ok rating =>
            simp only
            cases SendOk sent.length with
            | false => simp
            | true => simpa using ih _ _ _

/-- C6, the code at the failing input. On a stream whose first event names a laptop that
the laptop store does not hold, `RateLaptop` hands a NotFound status to `logError`, leaves
the loop by `break` and returns nil: the returned status is OK, not NotFound. The rating
store is not updated for that event, no echo is sent and the later event is not received. -/
theorem RateLaptop_unknown_laptop_returns_nil :
    sampleFind "laptop-2" = FindResult.absent ∧
    (RateLaptop float64Ops sampleFind (inMemoryAdd float64Ops) unknownLaptopStream
      (NewInMemoryRatingStore Float)).err = none ∧
    (RateLaptop float64Ops sampleFind (inMemoryAdd float64Ops) unknownLaptopStream
      (NewInMemoryRatingStore Float)).logged = some Code.NotFound ∧
    (RateLaptop float64Ops sampleFind (inMemoryAdd float64Ops) unknownLaptopStream
      (NewInMemoryRatingStore Float)).recvCalls = 1 ∧
    (RateLaptop float64Ops sampleFind (inMemoryAdd float64Ops) unknownLaptopStream
      (NewInMemoryRatingStore Float)).sent.length = 0 ∧
    ((RateLaptop float64Ops sampleFind (inMemoryAdd float64Ops) unknownLaptopStream
      (NewInMemoryRatingStore Float)).store.ratings "laptop-2").isNone = true ∧
    ((RateLaptop float64Ops sampleFind (inMemoryAdd float64Ops) unknownLaptopStream
      (NewInMemoryRatingStore Float)).store.ratings "laptop-1").isNone = true := by
  refine ⟨by decide, ?_, ?_, ?_, ?_, ?_, ?_⟩ <;> rfl


/-! ## Theorems: user store -/

/-- C9. `InMemoryUserStore.Save`, for every store state and every account: it returns
ErrAlreadyExists exactly when an account with the same username is already stored, and
then the store is unchanged (so `Find` still returns the stored account with its original
password hash and role); otherwise it returns no error, a following `Find` of that
username returns an account equal to the one saved, and the entry of every other username
is unchanged. -/
theorem Save_spec (u : InMemoryUserStore) (user : User) :
    ((u.Save user).2 = some StoreError.ErrAlreadyExists ↔
      (u.users user.Username).isSome = true) ∧
    ((u.users user.Username).isSome = true →
      (u.Save user).1 = u ∧
      (u.Save user).1.Find user.Username = u.Find user.Username) ∧
    ((u.users user.Username).isSome = false →
      (u.Save user).2 = none ∧
      (u.Save user).1.Find user.Username = some user ∧
      ∀ other : String, other ≠ user.Username →
        (u.Save user).1.users other = u.users other) := by
  cases h : u.users user.Username with
  | some stored =>
    simp [InMemoryUserStore.Save, h]
  | none =>
    refine ⟨by simp [InMemoryUserStore.Save, h], by simp, ?_⟩
    intro _
    refine ⟨by simp [InMemoryUserStore.Save, h], ?_, ?_⟩
    · simp [InMemoryUserStore.Save, InMemoryUserStore.Find, h, User.Clone]
    · intro other hne
      simp [InMemoryUserStore.Save, h, hne]

/-- Witness for C9 on the seeded store: saving a second `admin1` with another hash and
role fails and `Find` still gives the original account; saving the new `user2` succeeds,
`Find` returns it, and `admin1` is untouched. -/
theorem Save_spec_witness :
    (seededUserStore.Save
      { Username := "admin1", HasedPassword := "hash-x", Role := "user" }).2
      = some StoreError.ErrAlreadyExists ∧
    (seededUserStore.Save
      { Username := "admin1", HasedPassword := "hash-x", Role := "user" }).1.Find "admin1"
      = seededUserStore.Find "admin1" ∧
    seededUserStore.Find "admin1"
      = some { Username := "admin1", HasedPassword := "hash-a", Role := "admin" } ∧
    (seededUserStore.Save
      { Username := "user2", HasedPassword := "hash-2", Role := "user" }).2 = none ∧
    (seededUserStore.Save
      { Username := "user2", HasedPassword := "hash-2", Role := "user" }).1.Find "user2"
      = some { Username := "user2", HasedPassword := "hash-2", Role := "user" } ∧
    (seededUserStore.Save
      { Username := "user2", HasedPassword := "hash-2", Role := "user" }).1.users "admin1"
      = seededUserStore.users "admin1" :=
  have hdup := Save_spec seededUserStore
    { Username := "admin1", HasedPassword := "hash-x", Role := "user" }
  have hnew := Save_spec seededUserStore
    { Username := "user2", HasedPassword := "hash-2", Role := "user" }
  ⟨hdup.1.2 (by decide), (hdup.2.1 (by decide)).2, by decide,
    (hnew.2.2 (by decide)).1, (hnew.2.2 (by decide)).2.1,
    (hnew.2.2 (by decide)).2.2 "admin1" (by decide)⟩

/-! ## Theorems: client interceptor -/

/-- C10. Client-side interception, for every interceptor state, method name and outgoing
context: when the method is mapped to true in `authMethods` the call is dispatched with
the context whose outgoing metadata has the entry ("authorization", current token)
appended; otherwise it is dispatched with the context unmodified; the method name is
passed on unchanged; and `Unary` and `Stream` dispatch with the same context and method
for the same method, token and input context. -/
theorem client_interceptor_attaches_token (i : Client.AuthInterceptor)
    (ctx : Client.Context) (method : String) :
    (i.authMethods method = true →
      ∀ (R : Type) (invoker : Client.Context → String → R),
        i.Unary ctx method invoker
          = invoker { outgoing := ctx.outgoing ++ [("authorization", i.accessToken)] }
              method) ∧
    (i.authMethods method = false →
      ∀ (R : Type) (invoker : Client.Context → String → R),
        i.Unary ctx method invoker = invoker ctx method) ∧
    (∀ (R : Type) (dispatch : Client.Context → String → R),
      i.Unary ctx method dispatch = i.Stream ctx method dispatch) := by
  refine ⟨?_, ?_, ?_⟩
  · intro h R invoker
    simp [Client.AuthInterceptor.Unary, h, Client.AuthInterceptor.attachToken,
      Client.AppendToOutgoingContext]
  · intro h R invoker
    simp [Client.AuthInterceptor.Unary, h]
  · intro R dispatch
    rfl

/-- Witness for C10 on the sample client: a unary CreateLaptop call leaves with the token
appended after the metadata already present, a streaming SearchLaptop call leaves with
its context as it came. -/
theorem client_interceptor_attaches_token_witness :
    Client.sampleClient.Unary { outgoing := [("trace", "t1")] }
        "/pcbook.pcbook.LaptopService/CreateLaptop" Prod.mk
      = (({ outgoing := [("trace", "t1")] ++ [("authorization", "tok-admin")] }
            : Client.Context),
          "/pcbook.pcbook.LaptopService/CreateLaptop") ∧
    Client.sampleClient.Stream { outgoing := [("trace", "t1")] }
        "/pcbook.pcbook.LaptopService/SearchLaptop" Prod.mk
      = (({ outgoing := [("trace", "t1")] } : Client.Context),
          "/pcbook.pcbook.LaptopService/SearchLaptop") :=
  ⟨(client_interceptor_attaches_token Client.sampleClient { outgoing := [("trace", "t1")] }
      "/pcbook.pcbook.LaptopService/CreateLaptop").1 (by decide) _ Prod.mk,
   ((client_interceptor_attaches_token Client.sampleClient { outgoing := [("trace", "t1")] }
      "/pcbook.pcbook.LaptopService/SearchLaptop").2.2 _ Prod.mk).symm.trans
    ((client_interceptor_attaches_token Client.sampleClient { outgoing := [("trace", "t1")] }
      "/pcbook.pcbook.LaptopService/SearchLaptop").2.1 (by decide) _ Prod.mk)⟩

/-! ## Theorems: client token refresh -/

/-- Running the refresh loop over a list of `Login` results and then one more is running
it over the list and then doing one iteration. -/
theorem refreshLoop_append_one (refreshDuration : Int)
    (before : List (Except String String)) (login : Except String String) :
    ∀ st : Client.RefreshState,
      Client.refreshLoop refreshDuration st (before ++ [login])
        = Client.refreshIteration refreshDuration
            (Client.refreshLoop refreshDuration st before) login := by
  induction before with
  | nil => intro st; rfl
  | cons l rest ih =>
    intro st
    simp only [List.cons_append, Client.refreshLoop]
    exact ih _

/-- C11. Client token refresh step, for every refresh period, every state of the
background loop (any interceptor, any previous wait interval) and every number of
iterations already done: the next iteration sleeps for the current wait interval; when
its `Login` fails the interceptor is unchanged (the previous token stays the current one)
and the next wait interval is `time.Second`, which is 1 second (10^9 ns); when its
`Login` succeeds the current token becomes the returned token, the protected set is
unchanged, and the next wait interval is the refresh period. -/
theorem refresh_iteration_spec (refreshDuration : Int) (st : Client.RefreshState)
    (before : List (Except String String)) :
    (∀ err : String,
      (Client.refreshLoop refreshDuration st (before ++ [Except.error err])).interceptor
        = (Client.refreshLoop refreshDuration st before).interceptor ∧
      (Client.refreshLoop refreshDuration st (before ++ [Except.error err])).wait
        = Client.Second ∧
      (Client.refreshLoop refreshDuration st (before ++ [Except.error err])).slept
        = (Client.refreshLoop refreshDuration st before).slept
            ++ [(Client.refreshLoop refreshDuration st before).wait]) ∧
    (∀ token : String,
      (Client.refreshLoop refreshDuration st
          (before ++ [Except.ok token])).interceptor.accessToken = token ∧
      (Client.refreshLoop refreshDuration st
          (before ++ [Except.ok token])).interceptor.authMethods
        = (Client.refreshLoop refreshDuration st before).interceptor.authMethods ∧
      (Client.refreshLoop refreshDuration st (before ++ [Except.ok token])).wait
        = refreshDuration ∧
      (Client.refreshLoop refreshDuration st (before ++ [Except.ok token])).slept
        = (Client.refreshLoop refreshDuration st before).slept
            ++ [(Client.refreshLoop refreshDuration st before).wait]) ∧
    Client.Second = 1000000000 := by
  refine ⟨?_, ?_, rfl⟩
  · intro err
    rw [refreshLoop_append_one]
    simp only [Client.refreshIteration, Client.AuthInterceptor.refreshToken, and_self]
  · intro token
    rw [refreshLoop_append_one]
    simp only [Client.refreshIteration, Client.AuthInterceptor.refreshToken, and_self]

/-- Witness for C11 on the sample client with a refresh period of 30 seconds: after one
failed login the wait is 1 second and the token is still `tok-admin`; a following
successful login stores `tok-2` and restores the wait to 30 seconds; the loop slept 30
seconds and then 1 second. -/
theorem refresh_iteration_spec_witness :
    (Client.refreshLoop 30000000000
      { interceptor := Client.sampleClient, wait := 30000000000, slept := [] }
      ([] ++ [Except.error "unavailable"])).interceptor.accessToken = "tok-admin" ∧
    (Client.refreshLoop 30000000000
      { interceptor := Client.sampleClient, wait := 30000000000, slept := [] }
      ([] ++ [Except.error "unavailable"])).wait = 1000000000 ∧
    (Client.refreshLoop 30000000000
      { interceptor := Client.sampleClient, wait := 30000000000, slept := [] }
      ([Except.error "unavailable"] ++ [Except.ok "tok-2"])).interceptor.accessToken
      = "tok-2" ∧
    (Client.refreshLoop 30000000000
      { interceptor := Client.sampleClient, wait := 30000000000, slept := [] }
      ([Except.error "unavailable"] ++ [Except.ok "tok-2"])).wait = 30000000000 ∧
    (Client.refreshLoop 30000000000
      { interceptor := Client.sampleClient, wait := 30000000000, slept := [] }
      ([Except.error "unavailable"] ++ [Except.ok "tok-2"])).slept
      = [30000000000, 1000000000] :=
  have h0 := refresh_iteration_spec 30000000000
    { interceptor := Client.sampleClient, wait := 30000000000, slept := [] } []
  have h1 := refresh_iteration_spec 30000000000
    { interceptor := Client.sampleClient, wait := 30000000000, slept := [] }
    [Except.error "unavailable"]
  ⟨congrArg Client.AuthInterceptor.accessToken (h0.1 "unavailable").1,
    (h0.1 "unavailable").2.1.trans h0.2.2,
    (h1.2.1 "tok-2").1, (h1.2.1 "tok-2").2.2.1, (h1.2.1 "tok-2").2.2.2⟩

end PcBook
